import Mathlib

/-!
# sync-controller

A shallow embedding of `main.go` (flag handling, the start-up sequence, the
`sync.Reconciler` literal) together with the contract of the `controller`
package that `main.go` wires up.

Go strings are byte sequences; every external call of `main` is answered by
an environment that maps the call (with its arguments) to the `error` it
returns.
-/

namespace SyncController

/-! ## Go values -/

/-- A Go `string`: a finite sequence of bytes. -/
abbrev GoString := List UInt8

/-- The bytes of a string literal of the source (Go source text is UTF-8). -/
def str (s : String) : GoString := s.toUTF8.data.toList

/-- A Go `error` value that is not nil, identified by its message. -/
abbrev GoError := GoString

/-- The library function `strings.HasPrefix(s, prefix)`:
`len(s) >= len(prefix) && s[:len(prefix)] == prefix`. -/
def HasPrefix (s pre : GoString) : Bool :=
  decide (s.length ≥ pre.length) && s.take pre.length == pre

/-! ## `main.go`: `stringArray` -/

/-- The type `stringArray`, declared as `[]string` (main.go:32). -/
abbrev stringArray := List GoString

/-- The method `func (i *stringArray) Set(value string) error` (main.go:40-43):
`*i = append(*i, value); return nil`.  The result is the new value of `*i`
and the returned error (`none` is nil). -/
def stringArray.Set (i : stringArray) (value : GoString) : stringArray × Option GoError :=
  (i ++ [value], none)

/-- What `flag.Parse` does with the occurrences `vs` of a flag registered by
`flag.Var(&localSecretNames, "local-secret-name", ...)` (main.go:68): it calls
`Set` once per occurrence, in command-line order, on a variable that starts as
the nil slice. -/
def parseLocalSecretNames (vs : List GoString) : stringArray :=
  vs.foldl (fun acc v => (stringArray.Set acc v).1) []

/-! ## `main.go`: flags and the values built from them -/

/-- The variables of `main` bound to command-line flags (main.go:46-55), as
they stand after `flag.Parse()`. -/
structure Flags where
  probeAddr : GoString
  enableLeaderElection : Bool
  remoteKubeconfig : GoString
  group : GoString
  version : GoString
  kind : GoString
  remoteResourceSuffix : GoString
  localNamespaceSuffix : GoString
  namespacePrefix : GoString
  localSecretNames : stringArray
deriving DecidableEq

/-- The flag defaults of main.go:57-68 (the values when no flag is given). -/
def defaultFlags : Flags where
  probeAddr := str ":8081"
  enableLeaderElection := false
  remoteKubeconfig := []
  group := []
  version := []
  kind := []
  remoteResourceSuffix := []
  localNamespaceSuffix := []
  namespacePrefix := []
  localSecretNames := []

/-- The struct `schema.GroupVersionKind`. -/
structure GroupVersionKind where
  Group : GoString
  Version : GoString
  Kind : GoString
deriving DecidableEq

/-- The type `metav1.DeletionPropagation` with its three declared values. -/
inductive DeletionPropagation where
  | Orphan
  | Background
  | Foreground
deriving DecidableEq

/-- The fields of `sync.Reconciler` that `main` fills from flags and constants
(main.go:110-126).  `Client`, `RemoteClient`, `RemoteCache` and `Scheme` are
handles obtained from the manager and the remote cluster and carry no flag
value. -/
structure Reconciler where
  GroupVersionKind : GroupVersionKind
  RemoteResourceSuffix : GoString
  LocalNamespaceSuffix : GoString
  NamespacePrefix : GoString
  LocalSecretNames : stringArray
  LocalPropagationPolicy : DeletionPropagation
  ConcurrentReconciles : Int
deriving DecidableEq

/-- The `sync.Reconciler` literal of main.go:110-126. -/
def syncReconciler (f : Flags) : Reconciler where
  GroupVersionKind := { Group := f.group, Version := f.version, Kind := f.kind }
  RemoteResourceSuffix := f.remoteResourceSuffix
  LocalNamespaceSuffix := f.localNamespaceSuffix
  NamespacePrefix := f.namespacePrefix
  LocalSecretNames := f.localSecretNames
  LocalPropagationPolicy := DeletionPropagation.Foreground
  ConcurrentReconciles := 1

/-- The value of `fmt.Sprintf("%s.%s.%s", kind, version, group)` (main.go:104). -/
def leaderElectionID (group version kind : GoString) : GoString :=
  kind ++ str "." ++ version ++ str "." ++ group

/-- The fields of `ctrl.Options` set at main.go:100-105 (`Scheme` is the
package-level scheme). -/
structure Options where
  HealthProbeBindAddress : GoString
  LeaderElection : Bool
  LeaderElectionID : GoString
deriving DecidableEq

/-- The `ctrl.Options` literal of main.go:100-105. -/
def managerOptions (f : Flags) : Options where
  HealthProbeBindAddress := f.probeAddr
  LeaderElection := f.enableLeaderElection
  LeaderElectionID := leaderElectionID f.group f.version f.kind

/-! ## `main.go`: the start-up sequence -/

/-- The external calls of `main` whose error result is checked, with the
arguments that come from flags. -/
inductive Call where
  | BuildConfigFromFlags (masterUrl kubeconfigPath : GoString)
  | ClusterNew
  | InClusterConfig
  | NewManager (opts : Options)
  | SetupWithManager (r : Reconciler)
  | AddHealthzCheck (name : GoString)
  | AddReadyzCheck (name : GoString)
  | Start
deriving DecidableEq

/-- The start-up steps, in the order of the source text. -/
inductive Step where
  | buildRemoteConfig
  | createRemoteCluster
  | loadInClusterConfig
  | createManager
  | setUpReconciler
  | addHealthzCheck
  | addReadyzCheck
  | startManager
deriving DecidableEq

/-- The step a call belongs to. -/
def Call.step : Call → Step
  | .BuildConfigFromFlags _ _ => .buildRemoteConfig
  | .ClusterNew => .createRemoteCluster
  | .InClusterConfig => .loadInClusterConfig
  | .NewManager _ => .createManager
  | .SetupWithManager _ => .setUpReconciler
  | .AddHealthzCheck _ => .addHealthzCheck
  | .AddReadyzCheck _ => .addReadyzCheck
  | .Start => .startManager

/-- All eight steps in source order. -/
def allSteps : List Step :=
  [.buildRemoteConfig, .createRemoteCluster, .loadInClusterConfig, .createManager,
   .setUpReconciler, .addHealthzCheck, .addReadyzCheck, .startManager]

/-- What a run of `main` does that is visible from outside. -/
inductive Event where
  | call (c : Call)
  | logError (err : GoError) (msg : GoString)
  | logInfo (msg : GoString)
  | exit (code : Nat)
deriving DecidableEq

/-- A finished run: its events in order and the exit status of the process
(0 when `main` returns). -/
structure Run where
  trace : List Event
  exitCode : Nat
deriving DecidableEq

/-- The answer of the outside world to each call: the error it returns, or
`none` for nil. -/
abbrev Env := Call → Option GoError

/-- The run that ends with `setupLog.Error(err, msg); os.Exit(1)` after the events `done`. -/
def die (done : List Event) (err : GoError) (msg : GoString) : Run :=
  { trace := done ++ [Event.logError err msg, Event.exit 1], exitCode := 1 }

/-- The body of `main` after `flag.Parse()` (main.go:77-146). -/
def main (env : Env) (f : Flags) : Run :=
  if f.remoteKubeconfig = [] then
    die [] (str "no remote kubeconfig provided") (str "unable to get remote kubeconfig")
  else
  let c1 := Call.BuildConfigFromFlags [] f.remoteKubeconfig
  match env c1 with
  | some err => die [.call c1] err (str "failed to create remote config")
  | none =>
  let c2 := Call.ClusterNew
  match env c2 with
  | some err => die [.call c1, .call c2] err (str "unable to create remote cluster")
  | none =>
  let c3 := Call.InClusterConfig
  match env c3 with
  | some err =>
    die [.call c1, .call c2, .call c3] err (str "failed to get in-cluster config as local config")
  | none =>
  let c4 := Call.NewManager (managerOptions f)
  match env c4 with
  | some err => die [.call c1, .call c2, .call c3, .call c4] err (str "unable to start manager")
  | none =>
  let c5 := Call.SetupWithManager (syncReconciler f)
  match env c5 with
  | some err =>
    die [.call c1, .call c2, .call c3, .call c4, .call c5] err
      (str "unable to setup sync reconciler")
  | none =>
  let c6 := Call.AddHealthzCheck (str "healthz")
  match env c6 with
  | some err =>
    die [.call c1, .call c2, .call c3, .call c4, .call c5, .call c6] err
      (str "unable to set up health check")
  | none =>
  let c7 := Call.AddReadyzCheck (str "readyz")
  match env c7 with
  | some err =>
    die [.call c1, .call c2, .call c3, .call c4, .call c5, .call c6, .call c7] err
      (str "unable to set up ready check")
  | none =>
  let c8 := Call.Start
  match env c8 with
  | some err =>
    die [.call c1, .call c2, .call c3, .call c4, .call c5, .call c6, .call c7,
         .logInfo (str "starting manager"), .call c8] err (str "problem running manager")
  | none =>
    { trace := [.call c1, .call c2, .call c3, .call c4, .call c5, .call c6, .call c7,
                .logInfo (str "starting manager"), .call c8],
      exitCode := 0 }

/-- The calls of a trace, in order. -/
def calls : List Event → List Call
  | [] => []
  | .call c :: es => c :: calls es
  | _ :: es => calls es

/-- The calls `main` makes when nothing fails (main.go:82-143). -/
def plannedCalls (f : Flags) : List Call :=
  [.BuildConfigFromFlags [] f.remoteKubeconfig, .ClusterNew, .InClusterConfig,
   .NewManager (managerOptions f), .SetupWithManager (syncReconciler f),
   .AddHealthzCheck (str "healthz"), .AddReadyzCheck (str "readyz"), .Start]

/-! ## The `controller` package: naming and scope

`main.go` imports `github.com/gravitational/sync-controller/controller`; the
package itself is not among the sources, so what follows is taken from the
specification (sections 3, 4 and 8). -/

/-- Modelled from the spec: `eligible` of the controller package, which is not
among the sources.  Section 4.1: "true iff namespace starts with the
configured required prefix, or always true if no prefix is configured". -/
def eligible (r : Reconciler) (ns : GoString) : Bool :=
  if r.NamespacePrefix = [] then true else HasPrefix ns r.NamespacePrefix

/-- Modelled from the spec: `targetNamespace` of the controller package, which
is not among the sources.  Section 4.1: "appends the configured namespace
suffix to the source namespace". -/
def targetNamespace (r : Reconciler) (ns : GoString) : GoString :=
  ns ++ r.LocalNamespaceSuffix

/-- Modelled from the spec: `targetName` of the controller package, which is
not among the sources.  Section 4.1: "appends the configured resource-name
suffix to the source name". -/
def targetName (r : Reconciler) (name : GoString) : GoString :=
  name ++ r.RemoteResourceSuffix

/-! ## The `controller` package: reconciliation -/

/-- A reconcile key: the identity (namespace, name) of an object. -/
structure Key where
  Namespace : GoString
  Name : GoString
deriving DecidableEq

/-- A spec payload: an ordered mapping of field name to value (section 9). -/
abbrev Payload := List (GoString × GoString)

/-- A Source Object (section 3): version token, spec payload, deletion
marker. -/
structure SourceObject where
  resourceVersion : Nat
  spec : Payload
  deleting : Bool
deriving DecidableEq

/-- An object of the remote cluster (section 3): version token, spec payload
and the provenance record, if it carries one. -/
structure RemoteObject where
  resourceVersion : Nat
  spec : Payload
  provenance : Option Key
deriving DecidableEq

/-- The local cluster as the Local port shows it: the objects of the
configured resource type and the secrets, by key. -/
structure LocalStore where
  objects : Key → Option SourceObject
  secrets : Key → Option Payload

/-- The remote cluster as the Remote port shows it: the objects of the
configured resource type and the secrets, by key. -/
structure RemoteStore where
  objects : Key → Option RemoteObject
  secrets : Key → Option RemoteObject

/-- The reasons of a permanent failure (section 7). -/
inductive FailureReason where
  | OwnershipConflict
  | UnregisteredResourceType
deriving DecidableEq

/-- The outcome of `Reconcile` (section 6). -/
inductive Outcome where
  | converged
  | retryWithBackoff
  | permanentFailure (reason : FailureReason)
deriving DecidableEq

/-- A corrective write against one identity of the Remote port. -/
inductive Write where
  | create (o : RemoteObject)
  | update (o : RemoteObject)
  | delete (policy : DeletionPropagation)
deriving DecidableEq

/-- How the remote store answers a write (section 7): it accepts it, or it
refuses it for a transient reason. -/
inductive WriteAnswer where
  | accepted
  | versionConflict
  | throttled
  | unreachable
deriving DecidableEq

/-- The effect of an accepted write on the objects of one kind.  A delete
removes the object; that the remote store finalizes a foreground delete later
is not modelled. -/
def applyWrite (m : Key → Option RemoteObject) (k : Key) : Write → Key → Option RemoteObject
  | .create o => Function.update m k (some o)
  | .update o => Function.update m k (some o)
  | .delete _ => Function.update m k none

/-- Modelled from the spec: `matches` of the Provenance Tagger, which is not
among the sources.  Section 4.4: "strict equality check on recorded source
namespace/name". -/
def provenanceMatches (o : RemoteObject) (K : Key) : Bool :=
  decide (o.provenance = some K)

/-- Modelled from the spec: step 3 of section 4.2 (converge towards a desired
spec), which is not among the sources.  Absent: create with provenance `K`.
Present with matching provenance: update when the spec differs (the observed
version token is passed through and the store bumps it), no-op when it is
equal.  Present without matching provenance: permanent failure, "no write is
attempted". -/
def converge (K : Key) (desired : Payload) :
    Option RemoteObject → Option Write × Outcome
  | none => (some (.create { resourceVersion := 1, spec := desired, provenance := some K }),
             .converged)
  | some o =>
    if provenanceMatches o K then
      if o.spec = desired then (none, .converged)
      else (some (.update { o with spec := desired, resourceVersion := o.resourceVersion + 1 }),
            .converged)
    else (none, .permanentFailure .OwnershipConflict)

/-- Modelled from the spec: step 4 of section 4.2 (desired state "absent"),
which is not among the sources.  "if a Mirror Object exists at the
transformed identity and its provenance matches K, issue a delete with
foreground cascading propagation"; nothing else is done, and a missing mirror
is "treated as desired-absent, not an error" (section 7). -/
def remove (r : Reconciler) (K : Key) : Option RemoteObject → Option Write × Outcome
  | none => (none, .converged)
  | some o =>
    if provenanceMatches o K then (some (.delete r.LocalPropagationPolicy), .converged)
    else (none, .converged)

/-- The target identity of a key (section 4.2, step 2). -/
def targetKey (r : Reconciler) (K : Key) : Key :=
  { Namespace := targetNamespace r K.Namespace, Name := targetName r K.Name }

/-- Modelled from the spec: step 1 of section 4.2, which is not among the
sources.  The desired spec of the mirror of `K`, or `none` when the desired
state is "no Mirror Object, no Secret Mirrors": the source is absent, or its
namespace is not eligible, or it carries a deletion marker. -/
def desiredSpec (r : Reconciler) (loc : LocalStore) (K : Key) : Option Payload :=
  match loc.objects K with
  | none => none
  | some src => if eligible r K.Namespace && !src.deleting then some src.spec else none

/-- Modelled from the spec: steps 1 to 4 of section 4.2 for the key `K`, which
are not among the sources: the write they call for against the target
identity, if any, and their outcome. -/
def reconcileObject (r : Reconciler) (loc : LocalStore) (rem : RemoteStore) (K : Key) :
    Option Write × Outcome :=
  match desiredSpec r loc K with
  | some spec => converge K spec (rem.objects (targetKey r K))
  | none => remove r K (rem.objects (targetKey r K))

/-- The source identity and the target identity of the secret named `s` for
the source namespace `ns`.  The mirror keeps the secret's name, the default
of section 9, and lives in the target namespace (section 3). -/
def secretKeys (r : Reconciler) (ns s : GoString) : Key × Key :=
  ({ Namespace := ns, Name := s }, { Namespace := targetNamespace r ns, Name := s })

/-- Modelled from the spec: the desired payload of the Secret Mirror named `s`
for the key `K`, which is not among the sources.  Step 1 of section 4.2 sets
"no Mirror Object, no Secret Mirrors" when the source is absent, out of scope
or being deleted; otherwise step 5 looks "that secret up in the source
namespace". -/
def desiredSecret (r : Reconciler) (loc : LocalStore) (K : Key) (s : GoString) :
    Option Payload :=
  match desiredSpec r loc K with
  | some _ => loc.secrets (secretKeys r K.Namespace s).1
  | none => none

/-- Modelled from the spec: step 5 of section 4.2 for one configured secret
name, which is not among the sources: "if present, converge a Secret Mirror
the same way as steps 2-3; if absent, delete any previously-created Secret
Mirror for that name under the same ownership check as step 4". -/
def reconcileSecret (r : Reconciler) (loc : LocalStore) (rem : RemoteStore) (K : Key)
    (s : GoString) : Option Write × Outcome :=
  match desiredSecret r loc K s with
  | some payload =>
    converge (secretKeys r K.Namespace s).1 payload (rem.secrets (secretKeys r K.Namespace s).2)
  | none => remove r (secretKeys r K.Namespace s).1 (rem.secrets (secretKeys r K.Namespace s).2)

/-- What one step of an invocation decides about one remote identity: the
identity (a secret or an object of the mirrored type), the write the step
calls for, if any, and the outcome of the step. -/
structure Decision where
  secret : Bool
  target : Key
  write : Option Write
  outcome : Outcome
deriving DecidableEq

/-- A step that finds its identity converged: no write and no failure. -/
def Decision.idle (d : Decision) : Bool :=
  d.write.isNone && decide (d.outcome = Outcome.converged)

/-- Modelled from the spec: the steps of one invocation in order, which are
not among the sources: steps 1 to 4 on the target identity of `K`, then step 5
once per configured secret name.  Every step reads the cluster state as it is
when the invocation starts (cached reads, section 6). -/
def decisions (r : Reconciler) (loc : LocalStore) (rem : RemoteStore) (K : Key) :
    List Decision :=
  { secret := false, target := targetKey r K,
    write := (reconcileObject r loc rem K).1, outcome := (reconcileObject r loc rem K).2 } ::
  r.LocalSecretNames.map (fun s =>
    { secret := true, target := (secretKeys r K.Namespace s).2,
      write := (reconcileSecret r loc rem K s).1, outcome := (reconcileSecret r loc rem K s).2 })

/-- A write that an invocation sends to the Remote port. -/
structure Attempt where
  secret : Bool
  target : Key
  write : Write
deriving DecidableEq

/-- The remote store after an accepted write. -/
def applyAttempt (rem : RemoteStore) (a : Attempt) : RemoteStore :=
  if a.secret then { rem with secrets := applyWrite rem.secrets a.target a.write }
  else { rem with objects := applyWrite rem.objects a.target a.write }

/-- The result of one invocation: the remote store afterwards, the write
sent to the Remote port, if any, and the outcome. -/
structure Result where
  remote : RemoteStore
  attempted : Option Attempt
  outcome : Outcome

/-- Modelled from the spec: `Reconcile(key) -> outcome` of the controller
package (sections 2, 4.2, 6 and 7), which is not among the sources.  An
invocation "issues at most one corrective write": it acts on the first step
that is not converged and returns.  If that step is a permanent failure, "no
write is attempted" and the failure is returned.  If it calls for a write, the
write is sent; `answer` is what the remote store replies: accepted, or a
transient refusal, which leaves the store as it was and is returned as
retry-with-backoff.  The steps left over are taken up by the next invocation
(section 4.2, step 6). -/
def Reconcile (r : Reconciler) (loc : LocalStore) (rem : RemoteStore) (K : Key)
    (answer : WriteAnswer) : Result :=
  match (decisions r loc rem K).find? (fun d => !d.idle) with
  | none => { remote := rem, attempted := none, outcome := .converged }
  | some d =>
    match d.write with
    | none => { remote := rem, attempted := none, outcome := d.outcome }
    | some w =>
      if answer = WriteAnswer.accepted then
        { remote := applyAttempt rem { secret := d.secret, target := d.target, write := w },
          attempted := some { secret := d.secret, target := d.target, write := w },
          outcome := d.outcome }
      else
        { remote := rem,
          attempted := some { secret := d.secret, target := d.target, write := w },
          outcome := .retryWithBackoff }

/-- Successive invocations of `Reconcile` on `K`, one per entry of `runs`
(the local cluster as it stands at that invocation and the answer of the
remote store to a write): the remote store at the end and, per invocation in
order, the write sent and the outcome. -/
def reconcileAll (r : Reconciler) (K : Key) :
    List (LocalStore × WriteAnswer) → RemoteStore →
      RemoteStore × List (Option Attempt × Outcome)
  | [], rem => (rem, [])
  | run :: runs, rem =>
    let res := Reconcile r run.1 rem K run.2
    let rest := reconcileAll r K runs res.remote
    (rest.1, (res.attempted, res.outcome) :: rest.2)

/-- A source object is in scope at `K`: present, in an eligible namespace and
without a deletion marker, so that steps 2 and 3 compute a mirror for `K`. -/
def inScope (r : Reconciler) (loc : LocalStore) (K : Key) : Bool :=
  match loc.objects K with
  | none => false
  | some src => eligible r K.Namespace && !src.deleting

/-! ## Concrete inputs -/

/-- An environment in which every call succeeds. -/
def envOk : Env := fun _ => none

/-- An environment in which only `SetupWithManager` fails. -/
def envSetupFails : Env := fun c =>
  match c with
  | .SetupWithManager _ => some (str "no kind is registered")
  | _ => none

/-- Flags of the end-to-end example of section 8, with a remote kubeconfig. -/
def exampleFlags : Flags :=
  { defaultFlags with
    remoteKubeconfig := str "/etc/remote/kubeconfig"
    group := str "example.com"
    version := str "v1"
    kind := str "Widget"
    remoteResourceSuffix := str "-copy"
    localNamespaceSuffix := str "-mirror"
    namespacePrefix := str "team-"
    localSecretNames := [str "tls"] }

/-- A remote object without provenance. -/
def foreignObject : RemoteObject :=
  { resourceVersion := 7, spec := [(str "replicas", str "5")], provenance := none }

/-- A remote store holding `foreignObject` at `k` and nothing else. -/
def remoteWith (k : Key) : RemoteStore :=
  { objects := fun x => if x = k then some foreignObject else none,
    secrets := fun _ => none }

/-- A local store holding one source object at `k` and the secret `tls` in
the same namespace. -/
def localWith (k : Key) : LocalStore :=
  { objects := fun x =>
      if x = k then
        some { resourceVersion := 1, spec := [(str "replicas", str "3")], deleting := false }
      else none,
    secrets := fun x =>
      if x = { Namespace := k.Namespace, Name := str "tls" } then some [(str "crt", str "x")]
      else none }

/-- The reconciler built from `exampleFlags`. -/
def exampleReconciler : Reconciler := syncReconciler exampleFlags

/-- A key in a namespace with the required prefix `team-`. -/
def inScopeKey : Key := { Namespace := str "team-a", Name := str "cfg" }

/-- A key in a namespace without the required prefix; `localWith` of it holds
no source object at `inScopeKey`. -/
def outOfScopeKey : Key := { Namespace := str "other-b", Name := str "cfg" }

/-- The byte of the character `.` (0x2E). -/
def dotByte : UInt8 := 46

/-! ## Lemmas -/

theorem HasPrefix_iff (s pre : GoString) : HasPrefix s pre = true ↔ ∃ t, s = pre ++ t := by
  unfold HasPrefix
  constructor
  · intro h
    simp only [Bool.and_eq_true, decide_eq_true_eq, beq_iff_eq] at h
    refine ⟨s.drop pre.length, ?_⟩
    conv_lhs => rw [← List.take_append_drop pre.length s, h.2]
  · rintro ⟨t, rfl⟩
    simp

theorem foldl_Set (vs : List GoString) (l : stringArray) :
    vs.foldl (fun acc v => (stringArray.Set acc v).1) l = l ++ vs := by
  induction vs generalizing l with
  | nil => simp
  | cons v vs ih => simpa [stringArray.Set] using ih (l ++ [v])

/-- Two strings that agree after a first `.` split at the same place. -/
theorem dot_split (a b x y : GoString) (ha : dotByte ∉ a) (hb : dotByte ∉ b)
    (h : a ++ dotByte :: x = b ++ dotByte :: y) : a = b ∧ x = y := by
  induction a generalizing b with
  | nil =>
    cases b with
    | nil => simpa using h
    | cons c b =>
      simp at h
      simp [← h.1] at hb
  | cons c a ih =>
    cases b with
    | nil =>
      simp at h
      simp [h.1] at ha
    | cons d b =>
      simp at h ha hb
      obtain ⟨rfl, h2⟩ := h
      have := ih b ha.2 hb.2 h2
      simp [this.1, this.2]

theorem leaderElectionID_eq (g v k : GoString) :
    leaderElectionID g v k = k ++ dotByte :: (v ++ dotByte :: g) := by
  have hdot : str "." = [dotByte] := by decide
  simp [leaderElectionID, hdot]

/-- The calls of a run are an initial part of the planned calls. -/
theorem calls_main_planned (env : Env) (f : Flags) :
    ∀ c ∈ calls (main env f).trace, c ∈ plannedCalls f := by
  by_cases hk : f.remoteKubeconfig = []
  · simp [main, hk, die, calls]
  rcases h1 : env (Call.BuildConfigFromFlags [] f.remoteKubeconfig) with _ | e1
  swap
  · simp [main, hk, h1, die, calls, plannedCalls]
  rcases h2 : env Call.ClusterNew with _ | e2
  swap
  · simp [main, hk, h1, h2, die, calls, plannedCalls]
  rcases h3 : env Call.InClusterConfig with _ | e3
  swap
  · simp [main, hk, h1, h2, h3, die, calls, plannedCalls]
  rcases h4 : env (Call.NewManager (managerOptions f)) with _ | e4
  swap
  · simp [main, hk, h1, h2, h3, h4, die, calls, plannedCalls]
  rcases h5 : env (Call.SetupWithManager (syncReconciler f)) with _ | e5
  swap
  · simp [main, hk, h1, h2, h3, h4, h5, die, calls, plannedCalls]
  rcases h6 : env (Call.AddHealthzCheck (str "healthz")) with _ | e6
  swap
  · simp [main, hk, h1, h2, h3, h4, h5, h6, die, calls, plannedCalls]
  rcases h7 : env (Call.AddReadyzCheck (str "readyz")) with _ | e7
  swap
  · simp [main, hk, h1, h2, h3, h4, h5, h6, h7, die, calls, plannedCalls]
  rcases h8 : env Call.Start with _ | e8
  · simp [main, hk, h1, h2, h3, h4, h5, h6, h7, h8, calls, plannedCalls]
  · simp [main, hk, h1, h2, h3, h4, h5, h6, h7, h8, die, calls, plannedCalls]

/-- The only reconciler ever handed to `SetupWithManager` is the literal of
main.go:110-126. -/
theorem setup_mem_calls (env : Env) (f : Flags) (r : Reconciler)
    (h : Call.SetupWithManager r ∈ calls (main env f).trace) : r = syncReconciler f := by
  have := calls_main_planned env f _ h
  simpa [plannedCalls] using this

/-- The only options ever handed to `NewManager` are the literal of
main.go:100-105. -/
theorem manager_mem_calls (env : Env) (f : Flags) (o : Options)
    (h : Call.NewManager o ∈ calls (main env f).trace) : o = managerOptions f := by
  have := calls_main_planned env f _ h
  simpa [plannedCalls] using this

/-! ## `main.go`: theorems -/

/-- C3: whatever the flag values and whatever the outside world answers, the
reconciler that `main` constructs and sets up has the foreground
deletion-propagation policy. -/
theorem main_propagation_policy_foreground (env : Env) (f : Flags) (r : Reconciler)
    (h : Call.SetupWithManager r ∈ calls (main env f).trace) :
    r.LocalPropagationPolicy = DeletionPropagation.Foreground ∧
    r.LocalPropagationPolicy ≠ DeletionPropagation.Background ∧
    r.LocalPropagationPolicy ≠ DeletionPropagation.Orphan := by
  rw [setup_mem_calls env f r h]
  simp [syncReconciler]

theorem main_propagation_policy_foreground_witness :
    (syncReconciler exampleFlags).LocalPropagationPolicy = DeletionPropagation.Foreground :=
  (main_propagation_policy_foreground envOk exampleFlags (syncReconciler exampleFlags)
    (by decide)).1

/-- C4: the reconciler that `main` constructs carries the flag values
unchanged and unswapped: group, version and kind, the two suffixes, the
namespace prefix and the accumulated secret names in order (when the flag
variable was filled by `Set` from the occurrences `vs`, the field is `vs`). -/
theorem main_reconciler_carries_flags (env : Env) (f : Flags) (r : Reconciler)
    (h : Call.SetupWithManager r ∈ calls (main env f).trace) :
    r.GroupVersionKind = { Group := f.group, Version := f.version, Kind := f.kind } ∧
    r.RemoteResourceSuffix = f.remoteResourceSuffix ∧
    r.LocalNamespaceSuffix = f.localNamespaceSuffix ∧
    r.NamespacePrefix = f.namespacePrefix ∧
    r.LocalSecretNames = f.localSecretNames ∧
    (∀ vs, f.localSecretNames = parseLocalSecretNames vs → r.LocalSecretNames = vs) := by
  rw [setup_mem_calls env f r h]
  refine ⟨rfl, rfl, rfl, rfl, rfl, ?_⟩
  intro vs hvs
  simpa [syncReconciler, parseLocalSecretNames, foldl_Set] using hvs

theorem main_reconciler_carries_flags_witness :
    (syncReconciler exampleFlags).GroupVersionKind =
      { Group := str "example.com", Version := str "v1", Kind := str "Widget" } ∧
    (syncReconciler exampleFlags).RemoteResourceSuffix = str "-copy" ∧
    (syncReconciler exampleFlags).LocalNamespaceSuffix = str "-mirror" ∧
    (syncReconciler exampleFlags).NamespacePrefix = str "team-" ∧
    (syncReconciler exampleFlags).LocalSecretNames = [str "tls"] :=
  have h := main_reconciler_carries_flags envOk exampleFlags (syncReconciler exampleFlags)
    (by decide)
  ⟨h.1, h.2.1, h.2.2.1, h.2.2.2.1, h.2.2.2.2.1⟩

/-- C5: `stringArray.Set` never fails and appends: the error is nil, the new
list is the old one followed by the value (same earlier elements, one element
longer, nothing dropped), and `Set` called with `v1, ..., vn` in order on the
empty list yields exactly `[v1, ..., vn]`. -/
theorem stringArray_Set_appends (l : stringArray) (v : GoString) (vs : List GoString) :
    (stringArray.Set l v).2 = none ∧
    (stringArray.Set l v).1 = l ++ [v] ∧
    (stringArray.Set l v).1.length = l.length + 1 ∧
    (stringArray.Set l v).1.take l.length = l ∧
    (stringArray.Set l v).1.getLast? = some v ∧
    parseLocalSecretNames vs = vs := by
  refine ⟨rfl, rfl, by simp [stringArray.Set], by simp [stringArray.Set],
    by simp [stringArray.Set], ?_⟩
  simpa [parseLocalSecretNames] using foldl_Set vs []

/-- C6: with an empty `remote-kubeconfig` flag `main` logs "no remote
kubeconfig provided" and exits with status 1 without making any call; with a
non-empty one the check lets the program go on to `BuildConfigFromFlags`. -/
theorem main_requires_remote_kubeconfig (env : Env) (f : Flags) :
    (f.remoteKubeconfig = [] →
      main env f =
        { trace := [Event.logError (str "no remote kubeconfig provided")
                      (str "unable to get remote kubeconfig"), Event.exit 1],
          exitCode := 1 } ∧
      calls (main env f).trace = []) ∧
    (f.remoteKubeconfig ≠ [] →
      (main env f).trace.head? =
        some (Event.call (Call.BuildConfigFromFlags [] f.remoteKubeconfig)) ∧
      Event.logError (str "no remote kubeconfig provided")
        (str "unable to get remote kubeconfig") ∉ (main env f).trace) := by
  constructor
  · intro hk
    simp [main, hk, die, calls]
  · intro hk
    have hmsg : str "unable to get remote kubeconfig" ≠ str "failed to create remote config" ∧
        str "unable to get remote kubeconfig" ≠ str "unable to create remote cluster" ∧
        str "unable to get remote kubeconfig" ≠
          str "failed to get in-cluster config as local config" ∧
        str "unable to get remote kubeconfig" ≠ str "unable to start manager" ∧
        str "unable to get remote kubeconfig" ≠ str "unable to setup sync reconciler" ∧
        str "unable to get remote kubeconfig" ≠ str "unable to set up health check" ∧
        str "unable to get remote kubeconfig" ≠ str "unable to set up ready check" ∧
        str "unable to get remote kubeconfig" ≠ str "problem running manager" := by decide
    obtain ⟨m1, m2, m3, m4, m5, m6, m7, m8⟩ := hmsg
    rcases h1 : env (Call.BuildConfigFromFlags [] f.remoteKubeconfig) with _ | e1
    swap
    · simp [main, hk, h1, die, m1]
    rcases h2 : env Call.ClusterNew with _ | e2
    swap
    · simp [main, hk, h1, h2, die, m2]
    rcases h3 : env Call.InClusterConfig with _ | e3
    swap
    · simp [main, hk, h1, h2, h3, die, m3]
    rcases h4 : env (Call.NewManager (managerOptions f)) with _ | e4
    swap
    · simp [main, hk, h1, h2, h3, h4, die, m4]
    rcases h5 : env (Call.SetupWithManager (syncReconciler f)) with _ | e5
    swap
    · simp [main, hk, h1, h2, h3, h4, h5, die, m5]
    rcases h6 : env (Call.AddHealthzCheck (str "healthz")) with _ | e6
    swap
    · simp [main, hk, h1, h2, h3, h4, h5, h6, die, m6]
    rcases h7 : env (Call.AddReadyzCheck (str "readyz")) with _ | e7
    swap
    · simp [main, hk, h1, h2, h3, h4, h5, h6, h7, die, m7]
    rcases h8 : env Call.Start with _ | e8
    · simp [main, hk, h1, h2, h3, h4, h5, h6, h7, h8]
    · simp [main, hk, h1, h2, h3, h4, h5, h6, h7, h8, die, m8]

theorem main_requires_remote_kubeconfig_witness :
    (main envOk defaultFlags).exitCode = 1 ∧
    (main envOk exampleFlags).trace.head? =
      some (Event.call (Call.BuildConfigFromFlags [] (str "/etc/remote/kubeconfig"))) :=
  ⟨by rw [((main_requires_remote_kubeconfig envOk defaultFlags).1 (by decide)).1],
   ((main_requires_remote_kubeconfig envOk exampleFlags).2 (by decide)).1⟩

/-- C8: start-up fails fast and in order.  The calls of a run are an initial
part of the eight planned calls, so the steps run in the order
build-remote-config, create-remote-cluster, load-in-cluster-config,
create-manager, set-up-reconciler, add-healthz-check, add-readyz-check,
start-manager; a call that returns an error is the last call of the run, and
the run then ends with exit status 1; the manager is started exactly when the
remote kubeconfig is given and the seven earlier calls all succeed. -/
theorem main_startup_order (env : Env) (f : Flags) :
    calls (main env f).trace <+: plannedCalls f ∧
    (calls (main env f).trace).map Call.step <+: allSteps ∧
    (∀ c ∈ calls (main env f).trace, env c ≠ none →
      (main env f).exitCode = 1 ∧ (calls (main env f).trace).getLast? = some c ∧
      (main env f).trace.getLast? = some (Event.exit 1)) ∧
    (Call.Start ∈ calls (main env f).trace ↔
      f.remoteKubeconfig ≠ [] ∧ ∀ c ∈ (plannedCalls f).take 7, env c = none) := by
  by_cases hk : f.remoteKubeconfig = []
  · simp [main, hk, die, calls, plannedCalls, allSteps]
  rcases h1 : env (Call.BuildConfigFromFlags [] f.remoteKubeconfig) with _ | e1
  swap
  · simp [main, hk, h1, die, calls, plannedCalls, allSteps, Call.step, List.IsPrefix]
  rcases h2 : env Call.ClusterNew with _ | e2
  swap
  · simp [main, hk, h1, h2, die, calls, plannedCalls, allSteps, Call.step, List.IsPrefix]
  rcases h3 : env Call.InClusterConfig with _ | e3
  swap
  · simp [main, hk, h1, h2, h3, die, calls, plannedCalls, allSteps, Call.step, List.IsPrefix]
  rcases h4 : env (Call.NewManager (managerOptions f)) with _ | e4
  swap
  · simp [main, hk, h1, h2, h3, h4, die, calls, plannedCalls, allSteps, Call.step, List.IsPrefix]
  rcases h5 : env (Call.SetupWithManager (syncReconciler f)) with _ | e5
  swap
  · simp [main, hk, h1, h2, h3, h4, h5, die, calls, plannedCalls, allSteps, Call.step,
      List.IsPrefix]
  rcases h6 : env (Call.AddHealthzCheck (str "healthz")) with _ | e6
  swap
  · simp [main, hk, h1, h2, h3, h4, h5, h6, die, calls, plannedCalls, allSteps, Call.step,
      List.IsPrefix]
  rcases h7 : env (Call.AddReadyzCheck (str "readyz")) with _ | e7
  swap
  · simp [main, hk, h1, h2, h3, h4, h5, h6, h7, die, calls, plannedCalls, allSteps, Call.step,
      List.IsPrefix]
  rcases h8 : env Call.Start with _ | e8
  · simp [main, hk, h1, h2, h3, h4, h5, h6, h7, h8, calls, plannedCalls, allSteps,
      Call.step, List.IsPrefix]
  · simp [main, hk, h1, h2, h3, h4, h5, h6, h7, h8, die, calls, plannedCalls, allSteps,
      Call.step, List.IsPrefix]

theorem main_startup_order_witness :
    (main envSetupFails exampleFlags).exitCode = 1 ∧
    (calls (main envSetupFails exampleFlags).trace).getLast? =
      some (Call.SetupWithManager (syncReconciler exampleFlags)) ∧
    Call.Start ∉ calls (main envSetupFails exampleFlags).trace :=
  ⟨((main_startup_order envSetupFails exampleFlags).2.2.1
      (Call.SetupWithManager (syncReconciler exampleFlags)) (by decide) (by decide)).1,
   ((main_startup_order envSetupFails exampleFlags).2.2.1
      (Call.SetupWithManager (syncReconciler exampleFlags)) (by decide) (by decide)).2.1,
   by decide⟩

/-- C9: whatever the flag values and whatever the outside world answers, the
reconciler that `main` constructs and sets up has `ConcurrentReconciles`
equal to 1. -/
theorem main_concurrent_reconciles_one (env : Env) (f : Flags) (r : Reconciler)
    (h : Call.SetupWithManager r ∈ calls (main env f).trace) :
    r.ConcurrentReconciles = 1 := by
  rw [setup_mem_calls env f r h]
  rfl

theorem main_concurrent_reconciles_one_witness :
    (syncReconciler exampleFlags).ConcurrentReconciles = 1 :=
  main_concurrent_reconciles_one envOk exampleFlags (syncReconciler exampleFlags) (by decide)

/-- C10: the leader-election ID that `main` hands to `NewManager` is
`kind ++ "." ++ version ++ "." ++ group`, and on resource types whose kind and
version contain no `.` two IDs are equal only if group, version and kind are
equal. -/
theorem leaderElectionID_injective (g1 v1 k1 g2 v2 k2 : GoString)
    (hk1 : dotByte ∉ k1) (hv1 : dotByte ∉ v1) (hk2 : dotByte ∉ k2) (hv2 : dotByte ∉ v2) :
    (leaderElectionID g1 v1 k1 = leaderElectionID g2 v2 k2 ↔ g1 = g2 ∧ v1 = v2 ∧ k1 = k2) ∧
    leaderElectionID g1 v1 k1 = k1 ++ [dotByte] ++ v1 ++ [dotByte] ++ g1 ∧
    str "." = [dotByte] ∧
    ∀ (env : Env) (f : Flags) (o : Options), Call.NewManager o ∈ calls (main env f).trace →
      o.LeaderElectionID = leaderElectionID f.group f.version f.kind := by
  refine ⟨⟨fun h => ?_, fun h => by rw [h.1, h.2.1, h.2.2]⟩, by simp [leaderElectionID_eq],
    by decide, ?_⟩
  · rw [leaderElectionID_eq, leaderElectionID_eq] at h
    obtain ⟨hk, hrest⟩ := dot_split _ _ _ _ hk1 hk2 h
    obtain ⟨hv, hg⟩ := dot_split _ _ _ _ hv1 hv2 hrest
    exact ⟨hg, hv, hk⟩
  · intro env f o ho
    rw [manager_mem_calls env f o ho]
    rfl

theorem leaderElectionID_injective_witness :
    leaderElectionID (str "example.com") (str "v1") (str "Widget") ≠
      leaderElectionID (str "example.com") (str "v1") (str "Gadget") :=
  fun h =>
    absurd ((leaderElectionID_injective (str "example.com") (str "v1") (str "Widget")
      (str "example.com") (str "v1") (str "Gadget")
      (by decide) (by decide) (by decide) (by decide)).1.mp h).2.2 (by decide)

/-! ## The `controller` package: lemmas -/

theorem desiredSpec_eq_none (r : Reconciler) (loc : LocalStore) (K : Key)
    (h : inScope r loc K = false) : desiredSpec r loc K = none := by
  unfold inScope at h
  unfold desiredSpec
  cases hsrc : loc.objects K with
  | none => rfl
  | some src => simp [hsrc] at h ⊢; exact h

theorem desiredSpec_eq_some (r : Reconciler) (loc : LocalStore) (K : Key)
    (h : inScope r loc K = true) : ∃ spec, desiredSpec r loc K = some spec := by
  unfold inScope at h
  unfold desiredSpec
  cases hsrc : loc.objects K with
  | none => simp [hsrc] at h
  | some src =>
    simp only [hsrc] at h
    exact ⟨src.spec, by simp [h]⟩

/-- Steps 1 to 4 on a key whose target identity holds a foreign object: no
write; an ownership conflict when the source is in scope, nothing to do
otherwise. -/
theorem reconcileObject_foreign (r : Reconciler) (loc : LocalStore) (rem : RemoteStore)
    (K : Key) (o : RemoteObject) (hpresent : rem.objects (targetKey r K) = some o)
    (hforeign : provenanceMatches o K = false) :
    reconcileObject r loc rem K =
      (none, if inScope r loc K then Outcome.permanentFailure FailureReason.OwnershipConflict
             else Outcome.converged) := by
  unfold reconcileObject
  cases hs : inScope r loc K with
  | true =>
    obtain ⟨spec, hspec⟩ := desiredSpec_eq_some r loc K hs
    simp [hspec, hpresent, converge, hforeign]
  | false =>
    simp [desiredSpec_eq_none r loc K hs, hpresent, remove, hforeign]

/-- An invocation on a colliding key: the source is in scope and a foreign
object sits at the target identity.  Step 3 fails, nothing is written. -/
theorem Reconcile_colliding (r : Reconciler) (loc : LocalStore) (rem : RemoteStore)
    (K : Key) (answer : WriteAnswer) (o : RemoteObject)
    (hpresent : rem.objects (targetKey r K) = some o)
    (hforeign : provenanceMatches o K = false) (hs : inScope r loc K = true) :
    (Reconcile r loc rem K answer).remote = rem ∧
    (Reconcile r loc rem K answer).attempted = none ∧
    (Reconcile r loc rem K answer).outcome =
      Outcome.permanentFailure FailureReason.OwnershipConflict := by
  have h := reconcileObject_foreign r loc rem K o hpresent hforeign
  simp [Reconcile, decisions, h, hs, Decision.idle]

/-- Any invocation on a key whose target identity holds a foreign object:
the objects of the mirrored type stay as they were, and a write, if one is
sent, goes to a secret. -/
theorem Reconcile_foreign (r : Reconciler) (loc : LocalStore) (rem : RemoteStore)
    (K : Key) (answer : WriteAnswer) (o : RemoteObject)
    (hpresent : rem.objects (targetKey r K) = some o)
    (hforeign : provenanceMatches o K = false) :
    (Reconcile r loc rem K answer).remote.objects = rem.objects ∧
    ∀ a, (Reconcile r loc rem K answer).attempted = some a → a.secret = true := by
  cases hs : inScope r loc K with
  | true =>
    obtain ⟨h1, h2, -⟩ := Reconcile_colliding r loc rem K answer o hpresent hforeign hs
    rw [h1, h2]
    simp
  | false =>
    have h := reconcileObject_foreign r loc rem K o hpresent hforeign
    simp only [Reconcile, decisions, h, hs, Decision.idle, List.find?_cons]
    simp only [Option.isNone_none, Bool.false_eq_true, if_false, decide_True, Bool.and_self,
      Bool.not_true]
    cases hfind : List.find? (fun d => !(d.write.isNone && decide (d.outcome = Outcome.converged)))
        (r.LocalSecretNames.map (fun s =>
          ({ secret := true, target := (secretKeys r K.Namespace s).2,
             write := (reconcileSecret r loc rem K s).1,
             outcome := (reconcileSecret r loc rem K s).2 } : Decision))) with
    | none => simp
    | some d =>
      have hmem := List.mem_of_find?_eq_some hfind
      obtain ⟨s, -, rfl⟩ := List.mem_map.mp hmem
      cases hw : (reconcileSecret r loc rem K s).1 with
      | none => simp
      | some w =>
        by_cases ha : answer = WriteAnswer.accepted
        · simp [ha, applyAttempt]
        · simp [ha]

/-! ## The `controller` package: theorems -/

/-- C1: `eligible(ns)` is true exactly when `ns` starts with the configured
required prefix; with no prefix configured (the empty string, the default of
the `namespace-prefix` flag) every namespace is eligible; with the prefix
`team-` the namespace `team-a` is eligible and `other-b` is not. -/
theorem eligible_iff_starts_with (r : Reconciler) (ns : GoString) :
    (eligible r ns = true ↔ ∃ t, ns = r.NamespacePrefix ++ t) ∧
    eligible { r with NamespacePrefix := [] } ns = true ∧
    (syncReconciler defaultFlags).NamespacePrefix = [] ∧
    eligible (syncReconciler defaultFlags) ns = true ∧
    exampleReconciler.NamespacePrefix = str "team-" ∧
    eligible exampleReconciler (str "team-a") = true ∧
    eligible exampleReconciler (str "other-b") = false := by
  refine ⟨?_, by simp [eligible], rfl, by simp [eligible, syncReconciler, defaultFlags],
    by decide, by decide, by decide⟩
  unfold eligible
  split
  · next h => simp [h]
  · exact HasPrefix_iff ns r.NamespacePrefix

/-- C2: `targetName(n)` is `n` followed by the remote-resource suffix and
`targetNamespace(ns)` is `ns` followed by the local-namespace suffix, for
every name, namespace and pair of suffixes; both functions are injective, and
so is the map from a key to its target identity; with the suffixes `-mirror`
and `-copy` the key (`team-a`, `cfg`) maps to (`team-a-mirror`, `cfg-copy`). -/
theorem target_names_append_injective (r : Reconciler) (n ns : GoString) :
    targetName r n = n ++ r.RemoteResourceSuffix ∧
    targetNamespace r ns = ns ++ r.LocalNamespaceSuffix ∧
    Function.Injective (targetName r) ∧
    Function.Injective (targetNamespace r) ∧
    Function.Injective (targetKey r) ∧
    exampleReconciler.LocalNamespaceSuffix = str "-mirror" ∧
    exampleReconciler.RemoteResourceSuffix = str "-copy" ∧
    targetKey exampleReconciler { Namespace := str "team-a", Name := str "cfg" } =
      { Namespace := str "team-a-mirror", Name := str "cfg-copy" } := by
  have h1 : Function.Injective (targetName r) := fun a b h => List.append_cancel_right h
  have h2 : Function.Injective (targetNamespace r) := fun a b h => List.append_cancel_right h
  refine ⟨rfl, rfl, h1, h2, ?_, by decide, by decide, by decide⟩
  intro a b h
  cases a
  cases b
  simp only [targetKey, Key.mk.injEq] at h
  simp [h1 h.2, h2 h.1]

/-- C7: a remote object that sits at the target identity of `K` without
provenance matching `K` is never mutated or deleted, over any number of
invocations of `Reconcile` on `K`, whatever the local cluster holds and
whatever the remote store answers at each of them: the remote objects of the
mirrored type stay as they were.  Every invocation in which `K` collides with
that object (its source object is present, eligible and not marked for
deletion, so that a mirror is computed for `K`) attempts no write, leaves the
remote store unchanged and returns permanent-failure(OwnershipConflict); when
that is so at every invocation, the remote store at the end is the one at the
start and every outcome is the ownership conflict. -/
theorem reconcile_ownership_isolation (r : Reconciler) (K : Key)
    (runs : List (LocalStore × WriteAnswer)) (rem : RemoteStore) (o : RemoteObject)
    (hpresent : rem.objects (targetKey r K) = some o)
    (hforeign : provenanceMatches o K = false) :
    (reconcileAll r K runs rem).1.objects = rem.objects ∧
    (reconcileAll r K runs rem).1.objects (targetKey r K) = some o ∧
    (reconcileAll r K runs rem).2.length = runs.length ∧
    (∀ p ∈ List.zip runs (reconcileAll r K runs rem).2, inScope r p.1.1 K = true →
      p.2 = (none, Outcome.permanentFailure FailureReason.OwnershipConflict)) ∧
    (∀ loc answer, inScope r loc K = true →
      (Reconcile r loc rem K answer).remote = rem ∧
      (Reconcile r loc rem K answer).attempted = none ∧
      (Reconcile r loc rem K answer).outcome =
        Outcome.permanentFailure FailureReason.OwnershipConflict) ∧
    ((∀ run ∈ runs, inScope r run.1 K = true) →
      (reconcileAll r K runs rem).1 = rem ∧
      (reconcileAll r K runs rem).2 =
        List.replicate runs.length
          (none, Outcome.permanentFailure FailureReason.OwnershipConflict)) := by
  induction runs generalizing rem with
  | nil =>
    refine ⟨rfl, hpresent, rfl, by simp [reconcileAll], ?_, by simp [reconcileAll]⟩
    intro loc answer hs
    exact Reconcile_colliding r loc rem K answer o hpresent hforeign hs
  | cons run runs ih =>
    obtain ⟨hobj, -⟩ := Reconcile_foreign r run.1 rem K run.2 o hpresent hforeign
    obtain ⟨i1, i2, i3, i4, -, i6⟩ :=
      ih (Reconcile r run.1 rem K run.2).remote (by rw [hobj, hpresent])
    refine ⟨?_, ?_, ?_, ?_, ?_, ?_⟩
    · simp only [reconcileAll]
      rw [i1, hobj]
    · simp only [reconcileAll]
      exact i2
    · simp [reconcileAll, i3]
    · intro p hp hs
      simp only [reconcileAll, List.zip_cons_cons, List.mem_cons] at hp
      rcases hp with rfl | hp
      · obtain ⟨-, c2, c3⟩ := Reconcile_colliding r run.1 rem K run.2 o hpresent hforeign hs
        simp [c2, c3]
      · exact i4 p hp hs
    · intro loc answer hs
      exact Reconcile_colliding r loc rem K answer o hpresent hforeign hs
    · intro hall
      have hs : inScope r run.1 K = true := hall run (List.mem_cons_self _ _)
      obtain ⟨c1, c2, c3⟩ := Reconcile_colliding r run.1 rem K run.2 o hpresent hforeign hs
      obtain ⟨j1, j2⟩ := i6 (fun x hx => hall x (List.mem_cons_of_mem _ hx))
      simp only [reconcileAll]
      rw [j1, j2, c1, c2, c3]
      exact ⟨rfl, by simp [List.replicate_succ]⟩

theorem reconcile_ownership_isolation_witness :
    ((reconcileAll exampleReconciler inScopeKey
      [(localWith inScopeKey, WriteAnswer.accepted), (localWith inScopeKey, WriteAnswer.throttled)]
      (remoteWith (targetKey exampleReconciler inScopeKey))).1 =
        remoteWith (targetKey exampleReconciler inScopeKey) ∧
      (reconcileAll exampleReconciler inScopeKey
        [(localWith inScopeKey, WriteAnswer.accepted),
         (localWith inScopeKey, WriteAnswer.throttled)]
        (remoteWith (targetKey exampleReconciler inScopeKey))).2 =
          [(none, Outcome.permanentFailure FailureReason.OwnershipConflict),
           (none, Outcome.permanentFailure FailureReason.OwnershipConflict)]) ∧
    (reconcileAll exampleReconciler inScopeKey
      [(localWith inScopeKey, WriteAnswer.accepted), (localWith outOfScopeKey, WriteAnswer.accepted)]
      (remoteWith (targetKey exampleReconciler inScopeKey))).1.objects
        (targetKey exampleReconciler inScopeKey) = some foreignObject :=
  ⟨(reconcile_ownership_isolation exampleReconciler inScopeKey
      [(localWith inScopeKey, WriteAnswer.accepted), (localWith inScopeKey, WriteAnswer.throttled)]
      (remoteWith (targetKey exampleReconciler inScopeKey)) foreignObject
      (by decide) (by decide)).2.2.2.2.2 (by decide),
   (reconcile_ownership_isolation exampleReconciler inScopeKey
      [(localWith inScopeKey, WriteAnswer.accepted), (localWith outOfScopeKey, WriteAnswer.accepted)]
      (remoteWith (targetKey exampleReconciler inScopeKey)) foreignObject
      (by decide) (by decide)).2.1⟩

end SyncController
